import Mathlib

/-
Verification of the team-runtime core (src/team/runtime.ts and
src/team/tmux-session.ts) against its natural-language specification.

Modelling conventions:
* JavaScript strings that are only filtered / truncated character-wise
  (team and worker names, file names) are embedded as `List Char`;
  other strings stay `String`.
* Millisecond timestamps are `Int` (for heartbeat ages) or `Nat`
  (for the shutdown poll clock).
* `readJsonSafe` results are `Option` values: `none` models a missing
  or unparsable file.
* External collaborators (the tmux binary, the worker processes, the
  system clock) are parameters of the embedded functions.
-/

namespace TeamCore

/-- One character of the tmux-safe alphabet used by `sanitizeName`
(tmux-session.ts line 45: the regex replaces every character outside
`[a-zA-Z0-9-]`). -/
def isValidNameChar (c : Char) : Bool :=
  (('a' ≤ c && c ≤ 'z') || ('A' ≤ c && c ≤ 'Z') || ('0' ≤ c && c ≤ '9') || (c = '-'))

/-- The regex replace in `sanitizeName`: keep exactly the characters of the
tmux-safe alphabet. -/
def sanitizeCore (name : List Char) : List Char :=
  name.filter isValidNameChar

/-- Embedding of `sanitizeName` (tmux-session.ts lines 44-54): strip to
`[A-Za-z0-9-]`, throw on an empty or shorter-than-2 result, truncate the
result to 50 characters. -/
def sanitizeName (name : List Char) : Except String (List Char) :=
  let sanitized := sanitizeCore name
  if sanitized.length = 0 then
    Except.error "Invalid name: contains no valid characters (alphanumeric or hyphen)"
  else if sanitized.length < 2 then
    Except.error "Invalid name: too short after sanitization (minimum 2 characters)"
  else
    Except.ok (sanitized.take 50)

theorem sanitizeName_ok_iff (name : List Char) :
    (∃ out, sanitizeName name = Except.ok out) ↔ 2 ≤ (sanitizeCore name).length := by
  unfold sanitizeName
  constructor
  · rintro ⟨out, hout⟩
    by_contra hlen
    simp only [not_le] at hlen
    rcases Nat.eq_zero_or_pos (sanitizeCore name).length with h0 | hpos
    · simp [h0] at hout
    · have h1 : (sanitizeCore name).length ≠ 0 := Nat.pos_iff_ne_zero.mp hpos
      simp [h1, hlen] at hout
  · intro hlen
    have h0 : ¬ (sanitizeCore name).length = 0 := by omega
    have h1 : ¬ (sanitizeCore name).length < 2 := by omega
    exact ⟨(sanitizeCore name).take 50, by simp [h0, h1]⟩

theorem sanitizeName_ok_elim (name out : List Char)
    (h : sanitizeName name = Except.ok out) : out = (sanitizeCore name).take 50 := by
  unfold sanitizeName at h
  rcases Nat.lt_or_ge (sanitizeCore name).length 2 with hlt | hge
  · rcases Nat.eq_zero_or_pos (sanitizeCore name).length with h0 | hpos
    · simp [h0] at h
    · have h1 : (sanitizeCore name).length ≠ 0 := Nat.pos_iff_ne_zero.mp hpos
      simp [h1, hlt] at h
  · have h0 : ¬ (sanitizeCore name).length = 0 := by omega
    have h1 : ¬ (sanitizeCore name).length < 2 := by omega
    simp [h0, h1] at h
    exact h.symm

theorem sanitizeCore_of_valid (l : List Char) (hvalid : ∀ c ∈ l, isValidNameChar c = true) :
    sanitizeCore l = l :=
  List.filter_eq_self.mpr hvalid

/-- C6 helper: every character surviving the filter is valid, so a successful
output consists of valid characters only. -/
theorem sanitizeName_ok_valid (name out : List Char)
    (h : sanitizeName name = Except.ok out) : ∀ c ∈ out, isValidNameChar c = true := by
  intro c hc
  have hout := sanitizeName_ok_elim name out h
  subst hout
  have hmem : c ∈ (sanitizeCore name) := List.mem_of_mem_take hc
  exact List.of_mem_filter hmem

/-- C6: `sanitizeName` keeps exactly the characters in `[A-Za-z0-9-]`, fails
precisely when fewer than 2 valid characters remain, truncates the survivors
to at most 50 characters, and is idempotent on every successful output. -/
theorem C6_sanitizeName_spec (name : List Char) :
    ((∃ e, sanitizeName name = Except.error e) ↔ (sanitizeCore name).length < 2) ∧
    (∀ out, sanitizeName name = Except.ok out →
      out = (sanitizeCore name).take 50 ∧ out.length ≤ 50 ∧
      sanitizeName out = Except.ok out) := by
  constructor
  · constructor
    · rintro ⟨e, he⟩
      by_contra hlen
      simp only [not_lt] at hlen
      rcases (sanitizeName_ok_iff name).mpr hlen with ⟨out, hout⟩
      rw [hout] at he
      exact Except.noConfusion he
    · intro hlen
      unfold sanitizeName
      rcases Nat.eq_zero_or_pos (sanitizeCore name).length with h0 | hpos
      · exact ⟨"Invalid name: contains no valid characters (alphanumeric or hyphen)",
          by simp [h0]⟩
      · have h1 : (sanitizeCore name).length ≠ 0 := Nat.pos_iff_ne_zero.mp hpos
        exact ⟨"Invalid name: too short after sanitization (minimum 2 characters)",
          by simp [h1, hlen]⟩
  · intro out hout
    have hdef := sanitizeName_ok_elim name out hout
    have hlen2 : 2 ≤ (sanitizeCore name).length :=
      (sanitizeName_ok_iff name).mp ⟨out, hout⟩
    have hlen50 : out.length ≤ 50 := by
      rw [hdef]
      calc ((sanitizeCore name).take 50).length
          = min 50 (sanitizeCore name).length := List.length_take 50 (sanitizeCore name)
        _ ≤ 50 := Nat.min_le_left _ _
    refine ⟨hdef, hlen50, ?_⟩
    have hfix : sanitizeCore out = out :=
      sanitizeCore_of_valid out (sanitizeName_ok_valid name out hout)
    have houtlen : 2 ≤ out.length := by
      rw [hdef, List.length_take]
      omega
    unfold sanitizeName
    rw [hfix]
    have h0 : ¬ out.length = 0 := by omega
    have h1 : ¬ out.length < 2 := by omega
    simp only [h0, h1, if_false]
    rw [List.take_of_length_le hlen50]

/-- C6 witness: a concrete run of the theorem at the input "a_b!", whose
sanitized form is "ab". -/
theorem C6_sanitizeName_spec_witness :
    sanitizeName ("a_b!".toList) = Except.ok ("ab".toList) ∧
    sanitizeName ("ab".toList) = Except.ok ("ab".toList) :=
  ⟨by rfl, ((C6_sanitizeName_spec ("a_b!".toList)).2 ("ab".toList) (by rfl)).2.2⟩

/-- The parsed content of a task file as read by `monitorTeam`
(runtime.ts line 167: `readJsonSafe<\x7b status: string \x7d>`); the status
field is optional because a JSON object may lack it. -/
structure ParsedTask where
  status : Option String
deriving DecidableEq

/-- One directory entry of the tasks directory: its file name and the
result of `readJsonSafe` on it (`none` = unparsable). -/
structure TaskFile where
  name : List Char
  parsed : Option ParsedTask
deriving DecidableEq

/-- Embedding of `f.endsWith(".json")` on the file name
(runtime.ts line 166). -/
def endsWithJson (name : List Char) : Bool :=
  decide (name.reverse.take 5 = ['n', 'o', 's', 'j', '.'])

/-- The aggregated task counts of a `TeamSnapshot`
(runtime.ts line 162). -/
structure TaskCounts where
  pending : Nat
  inProgress : Nat
  completed : Nat
  failed : Nat
deriving DecidableEq

/-- The per-file if/else-if chain of the count scan
(runtime.ts lines 168-171). -/
def tallyStatus (tc : TaskCounts) (parsed : Option ParsedTask) : TaskCounts :=
  match parsed with
  | none => tc
  | some task =>
    if task.status = some "pending" then { tc with pending := tc.pending + 1 }
    else if task.status = some "in_progress" then { tc with inProgress := tc.inProgress + 1 }
    else if task.status = some "completed" then { tc with completed := tc.completed + 1 }
    else if task.status = some "failed" then { tc with failed := tc.failed + 1 }
    else tc

/-- Embedding of the task-count scan of `monitorTeam` (runtime.ts lines
162-173): every `.json` file of the tasks directory is read best-effort and
tallied by its status field. -/
def countTasks (taskFiles : List TaskFile) : TaskCounts :=
  (taskFiles.filter (fun f => endsWithJson f.name)).foldl
    (fun tc f => tallyStatus tc f.parsed) ⟨0, 0, 0, 0⟩

/-- A heartbeat record as written by a worker
(runtime.ts line 184); `updatedAt` is the parsed timestamp in ms. -/
structure HeartbeatRecord where
  updatedAt : Int
  currentTaskId : Option String
deriving DecidableEq

/-- The per-worker observations `monitorTeam` makes through its external
collaborators: the pane id, the pane-liveness query result, and the
best-effort heartbeat read. -/
structure MonitorWorkerInput where
  paneId : String
  alive : Bool
  heartbeat : Option HeartbeatRecord
deriving DecidableEq

/-- Worker status row of a `TeamSnapshot` (runtime.ts lines 32-39). -/
structure WorkerStatus where
  workerName : String
  alive : Bool
  paneId : String
  currentTaskId : Option String
  lastHeartbeat : Option Int
  stalled : Bool
deriving DecidableEq

/-- Embedding of the per-worker body of the `monitorTeam` loop
(runtime.ts lines 179-200): the worker name is positional, the stall flag
is set only when a heartbeat is present and older than 60000 ms. -/
def workerStatusOf (i : Nat) (input : MonitorWorkerInput) (now : Int) : WorkerStatus :=
  { workerName := "worker-" ++ toString (i + 1)
    alive := input.alive
    paneId := input.paneId
    currentTaskId := input.heartbeat.bind (fun hb => hb.currentTaskId)
    lastHeartbeat := input.heartbeat.map (fun hb => hb.updatedAt)
    stalled :=
      match input.heartbeat with
      | some hb => decide (now - hb.updatedAt > 60000)
      | none => false }

/-- A team snapshot (runtime.ts lines 41-47). -/
structure TeamSnapshot where
  teamName : String
  phase : String
  workers : List WorkerStatus
  taskCounts : TaskCounts
  deadWorkers : List String
deriving DecidableEq

/-- Embedding of the phase inference of `monitorTeam`
(runtime.ts lines 207-215). -/
def inferPhase (tc : TaskCounts) : String :=
  if tc.inProgress = 0 ∧ tc.pending > 0 ∧ tc.completed = 0 then "planning"
  else if tc.failed > 0 ∧ tc.pending = 0 ∧ tc.inProgress = 0 then "fixing"
  else if tc.completed > 0 ∧ tc.pending = 0 ∧ tc.inProgress = 0 ∧ tc.failed = 0 then "completed"
  else "executing"

/-- Embedding of `monitorTeam` (runtime.ts lines 158-218) as a pure function
of the directory scan and the per-worker observations. -/
def monitorTeam (teamName : String) (taskFiles : List TaskFile)
    (workerInputs : List MonitorWorkerInput) (now : Int) : TeamSnapshot :=
  let taskCounts := countTasks taskFiles
  let workers := workerInputs.enum.map (fun p => workerStatusOf p.1 p.2 now)
  let deadWorkers := (workers.filter (fun w => !w.alive)).map (fun w => w.workerName)
  { teamName := teamName
    phase := inferPhase taskCounts
    workers := workers
    taskCounts := taskCounts
    deadWorkers := deadWorkers }

/-- The phase table of spec section 4.4, read off the claim: planning iff
pending>0, inProgress=0, completed=0; completed iff pending=0, inProgress=0,
completed>0, failed=0; fixing iff pending=0, inProgress=0, failed>0;
executing in every other case. -/
def phaseSpec (tc : TaskCounts) : String :=
  if tc.pending > 0 ∧ tc.inProgress = 0 ∧ tc.completed = 0 then "planning"
  else if tc.pending = 0 ∧ tc.inProgress = 0 ∧ tc.completed > 0 ∧ tc.failed = 0 then "completed"
  else if tc.pending = 0 ∧ tc.inProgress = 0 ∧ tc.failed > 0 then "fixing"
  else "executing"

theorem inferPhase_eq_phaseSpec (tc : TaskCounts) : inferPhase tc = phaseSpec tc := by
  unfold inferPhase phaseSpec
  split_ifs <;> first | rfl | (exfalso; omega)

/-- C1: the phase returned by `monitorTeam` is a deterministic pure function
of the task counts, given exactly by the phase table of spec section 4.4. -/
theorem C1_phase_table (teamName : String) (taskFiles : List TaskFile)
    (workerInputs : List MonitorWorkerInput) (now : Int) :
    (monitorTeam teamName taskFiles workerInputs now).phase =
      phaseSpec (countTasks taskFiles) := by
  unfold monitorTeam
  exact inferPhase_eq_phaseSpec _

/-- C2: a worker examined by `monitorTeam` is flagged stalled exactly when a
heartbeat is present and its age exceeds 60000 ms; a worker with no
heartbeat is never flagged stalled, one with a heartbeat of age at most
60000 ms is not flagged either. -/
theorem C2_stalled_iff (i : Nat) (input : MonitorWorkerInput) (now : Int) :
    (workerStatusOf i input now).stalled = true ↔
      ∃ hb, input.heartbeat = some hb ∧ now - hb.updatedAt > 60000 := by
  unfold workerStatusOf
  cases hhb : input.heartbeat with
  | none => simp
  | some hb => simp [hhb]

/-- C2 witness: a concrete worker with a heartbeat 70000 ms old is flagged
stalled by the theorem. -/
theorem C2_stalled_iff_witness :
    (workerStatusOf 0 ⟨"%1", true, some ⟨0, none⟩⟩ 70000).stalled = true :=
  (C2_stalled_iff 0 ⟨"%1", true, some ⟨0, none⟩⟩ 70000).mpr
    ⟨⟨0, none⟩, rfl, by decide⟩

/-- Sum of the four aggregated task counts. -/
def sumCounts (tc : TaskCounts) : Nat :=
  tc.pending + tc.inProgress + tc.completed + tc.failed

/-- A parse result whose status is one of the four values the count scan
recognises. -/
def statusRecognized (parsed : Option ParsedTask) : Bool :=
  match parsed with
  | none => false
  | some task =>
    decide (task.status = some "pending" ∨ task.status = some "in_progress" ∨
      task.status = some "completed" ∨ task.status = some "failed")

/-- A task file that the count scan actually tallies: parses to a record with
a recognised status and has a `.json` name. -/
def countedTaskFile (f : TaskFile) : Bool :=
  statusRecognized f.parsed && endsWithJson f.name

theorem sumCounts_tallyStatus (tc : TaskCounts) (parsed : Option ParsedTask) :
    sumCounts (tallyStatus tc parsed) =
      sumCounts tc + (if statusRecognized parsed then 1 else 0) := by
  cases parsed with
  | none => simp [tallyStatus, statusRecognized]
  | some task =>
    simp only [tallyStatus, statusRecognized, sumCounts]
    split_ifs <;> simp_all <;> omega

theorem sumCounts_foldl (l : List TaskFile) (tc : TaskCounts) :
    sumCounts (l.foldl (fun tc f => tallyStatus tc f.parsed) tc) =
      sumCounts tc + (l.filter (fun f => statusRecognized f.parsed)).length := by
  induction l generalizing tc with
  | nil => simp
  | cons f rest ih =>
    rw [List.foldl_cons, ih, sumCounts_tallyStatus]
    by_cases h : statusRecognized f.parsed = true
    · simp [List.filter_cons, h]
      omega
    · simp only [Bool.not_eq_true] at h
      simp [List.filter_cons, h]

/-- C5 counterexample: a tasks directory holding one unparsable task file
`1.json`. The snapshot counts sum to 0, but one task file is present, so the
sum does not equal the number of task files on disk. -/
theorem C5_sum_counterexample :
    sumCounts (monitorTeam "t1" [⟨"1.json".toList, none⟩] [] 0).taskCounts = 0 ∧
    ([⟨"1.json".toList, (none : Option ParsedTask)⟩] : List TaskFile).length = 1 ∧
    sumCounts (monitorTeam "t1" [⟨"1.json".toList, none⟩] [] 0).taskCounts ≠
      ([⟨"1.json".toList, (none : Option ParsedTask)⟩] : List TaskFile).length := by
  refine ⟨rfl, rfl, ?_⟩
  decide

/-- C5 (amended): the sum of the four counts of a `monitorTeam` snapshot
equals the number of task files the scan recognises — the `.json`-named
files that parse to a record with status pending, in_progress, completed or
failed. When every file in the tasks directory is such a file, the sum is
the total number of task files on disk. -/
theorem C5_sum_eq_counted (teamName : String) (taskFiles : List TaskFile)
    (workerInputs : List MonitorWorkerInput) (now : Int) :
    sumCounts (monitorTeam teamName taskFiles workerInputs now).taskCounts =
      (taskFiles.filter countedTaskFile).length := by
  show sumCounts (countTasks taskFiles) = _
  unfold countTasks
  rw [sumCounts_foldl]
  simp only [sumCounts, Nat.zero_add]
  rw [List.filter_filter]
  rfl

/-- A persisted task record (spec section 3; runtime.ts lines 92-100 for the
fields written at creation, line 239 adds `assignedAt`). -/
structure TaskRecord where
  id : String
  subject : String
  description : String
  status : String
  owner : Option String
  result : Option String
  createdAt : String
  assignedAt : Option String
deriving DecidableEq

/-- The task record `startTeam` writes for the i-th (0-based) task
definition (runtime.ts lines 90-101): 1-based string id, status pending,
no owner, no result. -/
def initialTaskRecord (i : Nat) (subject description createdAt : String) : TaskRecord :=
  { id := toString (i + 1)
    subject := subject
    description := description
    status := "pending"
    owner := none
    result := none
    createdAt := createdAt
    assignedAt := none }

/-- The record update `assignTask` performs when the task file parses
(runtime.ts lines 236-240): set owner, set status to in_progress, stamp
`assignedAt` — with no guard on the previous status. -/
def assignTaskUpdate (task : TaskRecord) (targetWorkerName timestamp : String) : TaskRecord :=
  { task with
    owner := some targetWorkerName
    status := "in_progress"
    assignedAt := some timestamp }

/-- A concrete completed task record used to exercise `assignTaskUpdate`. -/
def completedTaskExample : TaskRecord :=
  { id := "1"
    subject := "build"
    description := "build the project"
    status := "completed"
    owner := some "worker-1"
    result := some "done"
    createdAt := "2026-01-01T00:00:00.000Z"
    assignedAt := some "2026-01-01T00:01:00.000Z" }

/-- C3 counterexample: `assignTask` moves a task whose status is already
completed back to in_progress — the status transition is not monotonic. -/
theorem C3_monotonic_counterexample :
    completedTaskExample.status = "completed" ∧
    (assignTaskUpdate completedTaskExample "worker-2" "2026-01-01T00:02:00.000Z").status =
      "in_progress" :=
  ⟨rfl, rfl⟩

/-- C3 (amended): `startTeam` creates every task with status pending and no
owner; `monitorTeam` only reads task records; `assignTask` unconditionally
sets the owner to the target worker and the status to in_progress, whatever
the previous status was — so a completed or failed task is moved back to
in_progress when assigned. -/
theorem C3_transitions (i : Nat) (subject description createdAt : String)
    (task : TaskRecord) (targetWorkerName timestamp : String) :
    (initialTaskRecord i subject description createdAt).status = "pending" ∧
    (initialTaskRecord i subject description createdAt).owner = none ∧
    (assignTaskUpdate task targetWorkerName timestamp).status = "in_progress" ∧
    (assignTaskUpdate task targetWorkerName timestamp).owner = some targetWorkerName :=
  ⟨rfl, rfl, rfl, rfl⟩

/-- The externally visible effects of one `assignTask` call
(runtime.ts lines 223-252): the task-file write (if any), the block appended
to the target worker inbox, and the tmux trigger message. -/
structure AssignEffects where
  taskWrite : Option TaskRecord
  inboxAppend : String
  triggerMessage : String
deriving DecidableEq

/-- Embedding of `assignTask` (runtime.ts lines 223-252). `taskOnDisk` is
the `readJsonSafe` result for `tasks/\x7btaskId\x7d.json` (`none` = missing or
unparsable). The record is rewritten only when the read succeeded; the inbox
append and the trigger happen unconditionally. -/
def assignTask (teamName taskId targetWorkerName : String)
    (taskOnDisk : Option TaskRecord) (timestamp : String) : AssignEffects :=
  { taskWrite := taskOnDisk.map (fun t => assignTaskUpdate t targetWorkerName timestamp)
    inboxAppend := "\n\n---\n## New Task Assignment\nTask ID: " ++ taskId ++
      "\nClaim and execute task from: .omc/state/team/" ++ teamName ++ "/tasks/" ++
      taskId ++ ".json\n"
    triggerMessage := "new-task:" ++ taskId }

/-- C10: when the task file is missing or unparsable, `assignTask` completes
without error, writes no task file (the tasks directory is unchanged), and
still appends the New Task Assignment block referencing the task id to the
worker inbox and sends the new-task trigger to the pane. -/
theorem C10_assignTask_missing_file (teamName taskId targetWorkerName : String)
    (taskOnDisk : Option TaskRecord) (timestamp : String)
    (hmissing : taskOnDisk = none) :
    (assignTask teamName taskId targetWorkerName taskOnDisk timestamp).taskWrite = none ∧
    (assignTask teamName taskId targetWorkerName taskOnDisk timestamp).inboxAppend =
      "\n\n---\n## New Task Assignment\nTask ID: " ++ taskId ++
        "\nClaim and execute task from: .omc/state/team/" ++ teamName ++ "/tasks/" ++
        taskId ++ ".json\n" ∧
    (assignTask teamName taskId targetWorkerName taskOnDisk timestamp).triggerMessage =
      "new-task:" ++ taskId := by
  subst hmissing
  exact ⟨rfl, rfl, rfl⟩

/-- C10 witness: the theorem run at team t1, task 1, worker-1, with a
missing task file. -/
theorem C10_assignTask_missing_file_witness :
    (assignTask "t1" "1" "worker-1" none "2026-01-01T00:00:00.000Z").taskWrite = none ∧
    (assignTask "t1" "1" "worker-1" none "2026-01-01T00:00:00.000Z").inboxAppend =
      "\n\n---\n## New Task Assignment\nTask ID: " ++ "1" ++
        "\nClaim and execute task from: .omc/state/team/" ++ "t1" ++ "/tasks/" ++
        "1" ++ ".json\n" ∧
    (assignTask "t1" "1" "worker-1" none "2026-01-01T00:00:00.000Z").triggerMessage =
      "new-task:" ++ "1" :=
  C10_assignTask_missing_file "t1" "1" "worker-1" none "2026-01-01T00:00:00.000Z" rfl

/-- The session name under which `createTeamSession` creates the team
session (tmux-session.ts line 147): the prefix omc-team- followed by the
sanitized team name; fails when sanitization fails. -/
def createdSessionName (teamName : List Char) : Except String (List Char) :=
  (sanitizeName teamName).map (fun s => "omc-team-".toList ++ s)

/-- The session name `resumeTeam` probes with tmux has-session and returns
in the runtime (runtime.ts line 312): the prefix omc-team- followed by the
raw, unsanitized team name. -/
def resumeSessionName (teamName : List Char) : List Char :=
  "omc-team-".toList ++ teamName

/-- C4: evaluation at the failing team name "my_team", which
`createTeamSession` accepts. The session is created as omc-team-myteam
(sanitized) but `resumeTeam` probes omc-team-my_team (raw), so the probed
name is not the created name and resume can never find the session. -/
theorem C4_session_name_mismatch :
    createdSessionName ("my_team".toList) = Except.ok ("omc-team-myteam".toList) ∧
    resumeSessionName ("my_team".toList) = "omc-team-my_team".toList ∧
    ("omc-team-myteam".toList : List Char) ≠ "omc-team-my_team".toList := by
  refine ⟨by rfl, by rfl, ?_⟩
  decide

/-- Result of `createTeamSession` (tmux-session.ts lines 14-18), with pane
ids abstracted to strings. -/
structure TeamSession where
  sessionName : List Char
  leaderPaneId : String
  workerPaneIds : List String
deriving DecidableEq

/-- The new-pane discovery of `createTeamSession` (tmux-session.ts line
182): the first pane of the live pane list that is neither the leader nor an
already-known worker pane. -/
def discoverNewPane (allPanes : List String) (leaderPaneId : String)
    (workerPaneIds : List String) : Option String :=
  allPanes.find? (fun p => !(p = leaderPaneId) && !(workerPaneIds.contains p))

/-- The split loop of `createTeamSession` (tmux-session.ts lines 168-186).
`panes` is the live pane list of the session, `splitIds` the pane ids the
successive tmux splits create; after each split the full pane list is
re-listed and diffed against the known ids, and the discovered pane (when
found) is appended to the worker list. -/
def addWorkerPanes (leaderPaneId : String) :
    List String → List String → List String → List String
  | _, workerPaneIds, [] => workerPaneIds
  | panes, workerPaneIds, newId :: rest =>
    let panes2 := panes ++ [newId]
    let workerPaneIds2 :=
      match discoverNewPane panes2 leaderPaneId workerPaneIds with
      | some p => workerPaneIds ++ [p]
      | none => workerPaneIds
    addWorkerPanes leaderPaneId panes2 workerPaneIds2 rest

/-- Embedding of `createTeamSession` (tmux-session.ts lines 142-196): the
session starts with the leader pane; each split adds one pane, reported by
tmux as the next element of `splitIds` (`splitIds.length = workerCount`). -/
def createTeamSession (teamName : List Char) (leaderPaneId : String)
    (splitIds : List String) : Except String TeamSession :=
  (sanitizeName teamName).map (fun s =>
    { sessionName := "omc-team-".toList ++ s
      leaderPaneId := leaderPaneId
      workerPaneIds := addWorkerPanes leaderPaneId [leaderPaneId] [] splitIds })

theorem find?_append_singleton {α : Type} (l : List α) (x : α) (p : α → Bool)
    (hl : ∀ y ∈ l, p y = false) (hx : p x = true) :
    (l ++ [x]).find? p = some x := by
  induction l with
  | nil => simp [List.find?, hx]
  | cons a rest ih =>
    have ha : p a = false := hl a (List.mem_cons_self a rest)
    simp only [List.cons_append, List.find?, ha]
    exact ih (fun y hy => hl y (List.mem_cons_of_mem a hy))

theorem addWorkerPanes_eq (leaderPaneId : String) :
    ∀ (splitIds workerPaneIds : List String),
    ((leaderPaneId :: workerPaneIds) ++ splitIds).Nodup →
    addWorkerPanes leaderPaneId (leaderPaneId :: workerPaneIds) workerPaneIds splitIds =
      workerPaneIds ++ splitIds := by
  intro splitIds
  induction splitIds with
  | nil => intro workerPaneIds _; simp [addWorkerPanes]
  | cons newId rest ih =>
    intro workerPaneIds hnodup
    have hperm : ((leaderPaneId :: workerPaneIds) ++ newId :: rest) =
        ((leaderPaneId :: (workerPaneIds ++ [newId])) ++ rest) := by
      simp
    rw [hperm] at hnodup
    have hnd2 := hnodup
    rw [List.cons_append, List.nodup_cons] at hnd2
    have hleader_notmem : leaderPaneId ∉ (workerPaneIds ++ [newId]) ++ rest := hnd2.1
    have hnd3 : ((workerPaneIds ++ [newId]) ++ rest).Nodup := hnd2.2
    have hnew_ne_leader : ¬ (newId = leaderPaneId) := by
      intro h
      apply hleader_notmem
      apply List.mem_append_left
      apply List.mem_append_right
      simp [h]
    have hnew_notmem : newId ∉ workerPaneIds := by
      intro h
      have : ¬ ((workerPaneIds ++ [newId]).Nodup) := by
        intro hnd
        rcases List.nodup_append.mp hnd with ⟨_, _, hdisj⟩
        exact hdisj h (by simp)
      exact this (List.Nodup.of_append_left hnd3)
    have hfound : discoverNewPane ((leaderPaneId :: workerPaneIds) ++ [newId])
        leaderPaneId workerPaneIds = some newId := by
      unfold discoverNewPane
      apply find?_append_singleton
      · intro y hy
        rcases List.mem_cons.mp hy with hyl | hyw
        · subst hyl; simp
        · simp [List.elem_eq_mem, hyw]
      · simp [List.elem_eq_mem, hnew_ne_leader, hnew_notmem]
    show addWorkerPanes leaderPaneId ((leaderPaneId :: workerPaneIds) ++ [newId]) _ rest = _
    rw [hfound]
    have hstep := ih (workerPaneIds ++ [newId]) hnodup
    simp only [List.cons_append] at hstep ⊢
    rw [hstep]
    simp

/-- C8: when every tmux split succeeds and reports a fresh pane (the leader
pane id and the split pane ids are mutually distinct), `createTeamSession`
returns exactly one worker pane id per split — N of them for workerCount N —
plus the leader id, and all N+1 ids are mutually distinct. -/
theorem C8_createTeamSession_panes (teamName : List Char) (leaderPaneId : String)
    (splitIds : List String) (sess : TeamSession)
    (hfresh : (leaderPaneId :: splitIds).Nodup)
    (hok : createTeamSession teamName leaderPaneId splitIds = Except.ok sess) :
    sess.workerPaneIds.length = splitIds.length ∧
    (sess.leaderPaneId :: sess.workerPaneIds).Nodup := by
  unfold createTeamSession at hok
  cases hsan : sanitizeName teamName with
  | error e => rw [hsan] at hok; exact Except.noConfusion hok
  | ok s =>
    rw [hsan] at hok
    simp only [Except.map, Except.ok.injEq] at hok
    have hworkers : sess.workerPaneIds = splitIds := by
      rw [← hok]
      show addWorkerPanes leaderPaneId (leaderPaneId :: []) [] splitIds = splitIds
      have := addWorkerPanes_eq leaderPaneId splitIds []
      simp only [List.nil_append] at this
      exact this hfresh
    have hleader : sess.leaderPaneId = leaderPaneId := by rw [← hok]
    rw [hworkers, hleader]
    exact ⟨rfl, hfresh⟩

/-- C8 witness: a session for team t1 with two splits reporting panes %1 and
%2 next to leader %0 yields two distinct worker panes distinct from the
leader. -/
theorem C8_createTeamSession_panes_witness :
    (["%1", "%2"] : List String).length = 2 ∧
    ((TeamSession.mk ("omc-team-t1".toList) "%0" ["%1", "%2"]).leaderPaneId ::
      (TeamSession.mk ("omc-team-t1".toList) "%0" ["%1", "%2"]).workerPaneIds).Nodup := by
  have h := C8_createTeamSession_panes ("t1".toList) "%0" ["%1", "%2"]
    (TeamSession.mk ("omc-team-t1".toList) "%0" ["%1", "%2"]) (by decide) (by rfl)
  exact ⟨h.1, h.2⟩

/-- Team configuration (runtime.ts lines 15-21); tasks are
(subject, description) pairs and agent types are plain strings. -/
structure TeamConfig where
  teamName : String
  workerCount : Nat
  agentTypes : List String
  tasks : List (String × String)
  cwd : String
deriving DecidableEq

/-- Positional worker name (runtime.ts lines 49-51): worker-N, 1-based. -/
def workerNameOf (i : Nat) : String :=
  "worker-" ++ toString (i + 1)

/-- The shutdown ack-polling loop of `shutdownTeam` (runtime.ts lines
277-287): while the deadline has not passed and acks are outstanding, drop
every worker whose ack file exists now, and sleep 500 ms if any remain.
`ackedAt w t` tells whether the ack file of worker `w` exists at time `t`;
the clock advances 500 ms per sleep. Returns the finish time and the
workers still un-acked. -/
def pollLoop (ackedAt : String → Nat → Bool) (pending : List String)
    (now deadline : Nat) : Nat × List String :=
  if h : now < deadline ∧ pending ≠ [] then
    if (pending.filter (fun w => !(ackedAt w now))).isEmpty then
      (now, pending.filter (fun w => !(ackedAt w now)))
    else
      pollLoop ackedAt (pending.filter (fun w => !(ackedAt w now))) (now + 500) deadline
  else
    (now, pending)
termination_by deadline - now
decreasing_by omega

/-- The externally visible outcome of one `shutdownTeam` call
(runtime.ts lines 257-298). -/
structure ShutdownOutcome where
  shutdownMarkerWritten : Bool
  finishedAt : Nat
  unacked : List String
  sessionKilled : Bool
  stateDirRemoved : Bool
deriving DecidableEq

/-- Embedding of `shutdownTeam` (runtime.ts lines 257-298): write the
shutdown marker, poll for acks until `t0 + timeoutMs`, then unconditionally
kill the tmux session and remove the state directory. `configOnDisk` is the
`readJsonSafe` result for config.json (a missing config means zero expected
acks). -/
def shutdownTeam (configOnDisk : Option TeamConfig)
    (ackedAt : String → Nat → Bool) (t0 : Nat) (timeoutMs : Nat) : ShutdownOutcome :=
  let deadline := t0 + timeoutMs
  let workerCount := (configOnDisk.map (fun c => c.workerCount)).getD 0
  let expectedAcks := (List.range workerCount).map workerNameOf
  let r := pollLoop ackedAt expectedAcks t0 deadline
  { shutdownMarkerWritten := true
    finishedAt := r.1
    unacked := r.2
    sessionKilled := true
    stateDirRemoved := true }

theorem pollLoop_finishedAt_le (ackedAt : String → Nat → Bool) :
    ∀ (gas : Nat) (pending : List String) (now deadline : Nat),
    deadline - now ≤ gas → now ≤ deadline + 500 →
    (pollLoop ackedAt pending now deadline).1 ≤ deadline + 500 := by
  intro gas
  induction gas with
  | zero =>
    intro pending now deadline hgas hnow
    rw [pollLoop]
    split
    · next h => exfalso; omega
    · exact hnow
  | succ gas ih =>
    intro pending now deadline hgas hnow
    rw [pollLoop]
    split
    · next h =>
      split
      · exact Nat.le_of_lt (Nat.lt_of_lt_of_le h.1 (Nat.le_add_right deadline 500))
      · exact ih _ (now + 500) deadline (by omega) (by omega)
    · exact hnow

/-- C7: for every ack pattern (including zero acking workers) and every
timeout, `shutdownTeam` returns — the embedding is a total function, the
source absorbs every error of the kill and cleanup calls — no later than
timeoutMs plus one 500 ms poll interval after its start, and on return the
tmux session has been killed and the team state directory removed. -/
theorem C7_shutdownTeam_bounded (configOnDisk : Option TeamConfig)
    (ackedAt : String → Nat → Bool) (t0 timeoutMs : Nat) :
    (shutdownTeam configOnDisk ackedAt t0 timeoutMs).finishedAt ≤ t0 + timeoutMs + 500 ∧
    (shutdownTeam configOnDisk ackedAt t0 timeoutMs).sessionKilled = true ∧
    (shutdownTeam configOnDisk ackedAt t0 timeoutMs).stateDirRemoved = true := by
  refine ⟨?_, rfl, rfl⟩
  exact pollLoop_finishedAt_le ackedAt (t0 + timeoutMs - t0) _ t0 (t0 + timeoutMs)
    (Nat.le_refl _) (by omega)

/-- One side effect of `startTeam`, in program order (runtime.ts lines
82-133): directory creation, config and task writes, per-worker state
setup, tmux session creation, worker spawns. -/
inductive StartEffect where
  | mkdirTasks
  | mkdirMailbox
  | writeConfig
  | writeTask (id : String)
  | ensureWorkerDir (workerName : String)
  | writeOverlay (workerName : String)
  | seedInbox (workerName : String)
  | createSession
  | spawnWorker (workerName : String)
deriving DecidableEq

/-- Insertion-order deduplication, the embedding of
`[...new Set(agentTypes)]` (runtime.ts line 78). -/
def dedupFirst {α : Type} [DecidableEq α] : List α → List α
  | [] => []
  | a :: l => a :: dedupFirst (l.filter (fun x => decide (x ≠ a)))
termination_by l => l.length
decreasing_by
  exact Nat.lt_succ_of_le (List.length_filter_le _ _)

theorem mem_dedupFirst {α : Type} [DecidableEq α] (a : α) :
    ∀ (l : List α), a ∈ dedupFirst l ↔ a ∈ l := by
  suffices h : ∀ (n : Nat) (l : List α), l.length = n → (a ∈ dedupFirst l ↔ a ∈ l) by
    intro l
    exact h l.length l rfl
  intro n
  induction n using Nat.strong_induction_on with
  | _ n ih =>
    intro l hl
    cases l with
    | nil => simp [dedupFirst]
    | cons b rest =>
      rw [dedupFirst]
      by_cases hab : a = b
      · simp [hab]
      · have hlt : (rest.filter (fun x => decide (x ≠ b))).length < n := by
          have h1 : (rest.filter (fun x => decide (x ≠ b))).length ≤ rest.length :=
            List.length_filter_le _ _
          simp only [List.length_cons] at hl
          omega
        have hrec := ih _ hlt (rest.filter (fun x => decide (x ≠ b))) rfl

        simp only [List.mem_cons, hab, false_or]
        rw [hrec, List.mem_filter]
        simp [hab]

/-- The worker names `startTeam` derives (runtime.ts lines 104-107). -/
def startWorkerNames (workerCount : Nat) : List String :=
  (List.range workerCount).map workerNameOf

/-- Runtime handle returned by `startTeam` (runtime.ts lines 23-30). -/
structure TeamRuntime where
  teamName : String
  sessionName : List Char
  workerNames : List String
  workerPaneIds : List String
  cwd : String
deriving DecidableEq

/-- The filesystem effects `startTeam` performs after validation and before
session creation (runtime.ts lines 82-119), in program order. -/
def startFsEffects (config : TeamConfig) : List StartEffect :=
  [StartEffect.mkdirTasks, StartEffect.mkdirMailbox, StartEffect.writeConfig] ++
    (List.range config.tasks.length).map (fun i => StartEffect.writeTask (toString (i + 1))) ++
    (List.range config.workerCount).flatMap (fun i =>
      [StartEffect.ensureWorkerDir (workerNameOf i),
       StartEffect.writeOverlay (workerNameOf i),
       StartEffect.seedInbox (workerNameOf i)])

/-- Embedding of `startTeam` (runtime.ts lines 74-153): first validate every
distinct requested agent type against the external CLI check `cliOk` — the
source `validateCliAvailable` call, which throws before any filesystem or
tmux effect — then perform the filesystem setup, create the tmux session
and spawn the workers. Returns the effects performed together with the
thrown error or the returned runtime. `leaderPaneId` and `splitIds` are the
pane ids tmux reports. -/
def startTeam (cliOk : String → Bool) (config : TeamConfig)
    (leaderPaneId : String) (splitIds : List String) :
    List StartEffect × Except String TeamRuntime :=
  match (dedupFirst config.agentTypes).find? (fun a => !(cliOk a)) with
  | some a => ([], Except.error ("CLI for agent type not available: " ++ a))
  | none =>
    match createTeamSession config.teamName.toList leaderPaneId splitIds with
    | Except.error e => (startFsEffects config, Except.error e)
    | Except.ok sess =>
      (startFsEffects config ++ [StartEffect.createSession] ++
        (List.range config.workerCount).map (fun i => StartEffect.spawnWorker (workerNameOf i)),
       Except.ok
        { teamName := config.teamName
          sessionName := sess.sessionName
          workerNames := startWorkerNames config.workerCount
          workerPaneIds := sess.workerPaneIds
          cwd := config.cwd })

/-- C9: if the CLI check fails for some requested agent type, `startTeam`
raises that failure before performing any side effect: no directory, config,
task file, overlay or inbox write, and no tmux session. -/
theorem C9_startTeam_fail_fast (cliOk : String → Bool) (config : TeamConfig)
    (leaderPaneId : String) (splitIds : List String)
    (hbad : ∃ a ∈ config.agentTypes, cliOk a = false) :
    (startTeam cliOk config leaderPaneId splitIds).1 = [] ∧
    ∃ e, (startTeam cliOk config leaderPaneId splitIds).2 = Except.error e := by
  rcases hbad with ⟨a, hmem, hfail⟩
  cases hfind : (dedupFirst config.agentTypes).find? (fun a => !(cliOk a)) with
  | none =>
    exfalso
    have := List.find?_eq_none.mp hfind a ((mem_dedupFirst a config.agentTypes).mpr hmem)
    simp [hfail] at this
  | some bad =>
    unfold startTeam
    rw [hfind]
    exact ⟨rfl, _, rfl⟩

/-- C9 witness: a team requesting agent type claude while the CLI check
rejects everything; `startTeam` reports the error with no effects. -/
theorem C9_startTeam_fail_fast_witness :
    (startTeam (fun _ => false) ⟨"t1", 1, ["claude"], [("a", "d")], "/ws"⟩ "%0" []).1 = [] ∧
    ∃ e, (startTeam (fun _ => false) ⟨"t1", 1, ["claude"], [("a", "d")], "/ws"⟩ "%0" []).2 =
      Except.error e :=
  C9_startTeam_fail_fast (fun _ => false) ⟨"t1", 1, ["claude"], [("a", "d")], "/ws"⟩ "%0" []
    ⟨"claude", by simp, rfl⟩

end TeamCore
